import Mathlib

/- Verification of the quasi-Newton GLM fit/predict dispatch layer of
cpp/src/glm/qn/qn.h, in a shallow embedding over rational arithmetic.

The file embeds the three functions of qn.h (qn_fit, qnFit, qnPredict)
directly from the source. The collaborators that qn.h only calls into
(the per-loss kernels, the qn_minimize solver of qn_solvers.h, the
Tikhonov regularizer of glm_regularizer.h, the linearFwd and argmax
primitives, the device_buffer RAII allocation) are not part of the
excerpted source; they are either abstracted as parameters or modelled
from the specification, as marked on each definition. -/

namespace QN

/-- Storage order flag of the design matrix, as in qn.h line 64. -/
inductive STORAGE_ORDER where
  | COL_MAJOR
  | ROW_MAJOR
  deriving DecidableEq

/-- The ternary expression of qn.h line 64 selecting the storage order. -/
def storageOrder (X_col_major : Bool) : STORAGE_ORDER :=
  if X_col_major then STORAGE_ORDER.COL_MAJOR else STORAGE_ORDER.ROW_MAJOR

/-- Modelled from the spec (section 4.1): a Loss Capability (glm_base.h and the
per-loss headers are not under src/) reports its parameter count and evaluates
a loss value and a gradient at a weight vector, the data being bound
separately. -/
structure LossFunction where
  n_param : Nat
  value : List Rat → Rat
  gradient : List Rat → List Rat

/-- Squared euclidean norm of a weight vector. -/
def normSq (w : List Rat) : Rat := (w.map (fun x => x * x)).sum

/-- Modelled from the spec (section 4.2): the Tikhonov regularizer of
glm_regularizer.h (not under src/), holding the L2 coefficient. -/
structure Tikhonov where
  l2 : Rat

/-- Modelled from the spec (section 4.2): the Tikhonov penalty value,
l2 times the squared norm of w. -/
def Tikhonov.reg_value (r : Tikhonov) (w : List Rat) : Rat := r.l2 * normSq w

/-- Modelled from the spec (section 4.2): the Tikhonov gradient contribution,
2 * l2 * w. -/
def Tikhonov.reg_grad (r : Tikhonov) (w : List Rat) : List Rat :=
  w.map (fun x => 2 * r.l2 * x)

/-- Modelled from the spec (section 4.2): RegularizedGLM of glm_regularizer.h
(not under src/) decorates a loss with the Tikhonov regularizer, summing values
and gradients componentwise; n_param is a passthrough from the wrapped loss. -/
def RegularizedGLM (loss : LossFunction) (l2 : Rat) : LossFunction where
  n_param := loss.n_param
  value := fun w => loss.value w + (Tikhonov.mk l2).reg_value w
  gradient := fun w =>
    List.zipWith (fun a b => a + b) (loss.gradient w) ((Tikhonov.mk l2).reg_grad w)

/-- The optimizer parameter block filled in by qn_fit (qn.h lines 35-39). -/
structure LBFGSParam where
  epsilon : Rat
  max_iterations : Nat
  m : Nat
  max_linesearch : Nat

/-- Modelled from the spec (section 4.3): GLMWithData of glm_base.h (not under
src/) binds a loss capability to the design matrix, the targets, the z scratch
buffer and the sample count, exposing evaluation at w to the minimizer. -/
structure GLMWithData where
  obj : LossFunction
  Xptr : List (List Rat)
  yptr : List Rat
  N : Nat
  ordX : STORAGE_ORDER

/-- The outcome of one qn_minimize run: fitted weights, final objective value,
outer iteration count and the integer status code it returns. -/
structure MinimizeResult where
  w : List Rat
  fx : Rat
  iters : Nat
  status : Int

/-- Modelled from the spec (sections 4.4 and 6): the qn_minimize solver of
qn_solvers.h (not under src/), abstracted as a pure function of the data-bound
objective, the l1 coefficient, the optimizer parameters and the initial
weights. Purity makes the bound X and y read-only for the solver, per the
spec (immutable for the duration of fit). -/
def MinimizeFn : Type :=
  GLMWithData → Rat → LBFGSParam → List Rat → MinimizeResult

/-- Caller-provided memory visible to the fit entry point: the weight buffer w0
(initial guess, overwritten with the result), the scalar f, the iteration
counter, and the input buffers X and y. -/
structure FitMem where
  w0 : List Rat
  f : Rat
  num_iters : Nat
  X : List (List Rat)
  y : List Rat

/-- The write-back of qn_fit: the minimizer result is written through the w0
view (SimpleVec of qn.h line 40), the fx scalar and the num_iters counter,
while the solver status is the return value of qn_fit. -/
def writeBack (mem : FitMem) (r : MinimizeResult) : Int × FitMem :=
  (r.status, { mem with w0 := r.w, f := r.fx, num_iters := r.iters })

/-- Shallow embedding of qn_fit (qn.h lines 30-56): builds the LBFGSParam from
the scalar arguments, binds either the bare loss (when l2 == 0) or the
Tikhonov-regularized loss (otherwise) to the data, runs qn_minimize and writes
its results back, returning the solver status. -/
def qn_fit (qn_minimize : MinimizeFn) (loss : LossFunction) (mem : FitMem)
    (N : Nat) (l1 l2 : Rat) (max_iter : Nat) (grad_tol : Rat)
    (linesearch_max_iter lbfgs_memory : Nat) (ordX : STORAGE_ORDER) :
    Int × FitMem :=
  if l2 = 0 then
    writeBack mem
      (qn_minimize (GLMWithData.mk loss mem.X mem.y N ordX) l1
        (LBFGSParam.mk grad_tol max_iter lbfgs_memory linesearch_max_iter) mem.w0)
  else
    writeBack mem
      (qn_minimize (GLMWithData.mk (RegularizedGLM loss l2) mem.X mem.y N ordX) l1
        (LBFGSParam.mk grad_tol max_iter lbfgs_memory linesearch_max_iter) mem.w0)

/-- The four fatal ASSERT messages of qn.h (lines 72, 79, 86, 93 and 117, 125,
129, 133), as an enumeration. -/
inductive AbortMsg where
  | logisticInvalidC
  | squaredInvalidC
  | softmaxInvalidC
  | unknownLoss
  deriving DecidableEq

/-- Allocation events of the z scratch buffer. The buffer is a device_buffer
(qn.h lines 66 and 109); device_buffer.hpp is not under src/, so its scoped
acquire/release behavior, including release during unwinding from a fatal
assert, is modelled from the spec (sections 5 and 9: scoped acquisition,
guaranteed release on all exit paths). -/
inductive Event where
  | acquire (size : Nat)
  | release
  deriving DecidableEq

/-- Outcome of a qnFit call: normal return with the final memory, or a fatal
assert carrying the message and the caller-visible memory at the moment of the
abort. -/
inductive FitResult where
  | ok (mem : FitMem)
  | abort (msg : AbortMsg) (memAtAbort : FitMem)

/-- Shallow embedding of qnFit (qn.h lines 58-96): acquires the C*N scratch
buffer, dispatches on loss_type with the C validation asserts, and runs qn_fit
on the constructed loss, discarding the integer status qn_fit returns. The
concrete loss constructors (glm_logistic.h, glm_linear.h, glm_softmax.h, not
under src/) and the solver are abstract parameters. Each branch's second
component is the scratch-buffer event trace on that exit path. -/
def qnFit (qn_minimize : MinimizeFn)
    (logisticLoss squaredLoss : Nat → Bool → LossFunction)
    (softmaxLoss : Nat → Nat → Bool → LossFunction)
    (mem : FitMem) (N D C : Nat) (fit_intercept : Bool) (l1 l2 : Rat)
    (max_iter : Nat) (grad_tol : Rat) (linesearch_max_iter lbfgs_memory : Nat)
    (X_col_major : Bool) (loss_type : Int) : FitResult × List Event :=
  if loss_type = 0 then
    if C = 1 then
      (FitResult.ok
        (qn_fit qn_minimize (logisticLoss D fit_intercept) mem N l1 l2 max_iter
          grad_tol linesearch_max_iter lbfgs_memory (storageOrder X_col_major)).2,
       [Event.acquire (C * N), Event.release])
    else
      (FitResult.abort AbortMsg.logisticInvalidC mem,
       [Event.acquire (C * N), Event.release])
  else if loss_type = 1 then
    if C = 1 then
      (FitResult.ok
        (qn_fit qn_minimize (squaredLoss D fit_intercept) mem N l1 l2 max_iter
          grad_tol linesearch_max_iter lbfgs_memory (storageOrder X_col_major)).2,
       [Event.acquire (C * N), Event.release])
    else
      (FitResult.abort AbortMsg.squaredInvalidC mem,
       [Event.acquire (C * N), Event.release])
  else if loss_type = 2 then
    if 1 < C then
      (FitResult.ok
        (qn_fit qn_minimize (softmaxLoss D C fit_intercept) mem N l1 l2 max_iter
          grad_tol linesearch_max_iter lbfgs_memory (storageOrder X_col_major)).2,
       [Event.acquire (C * N), Event.release])
    else
      (FitResult.abort AbortMsg.softmaxInvalidC mem,
       [Event.acquire (C * N), Event.release])
  else
    (FitResult.abort AbortMsg.unknownLoss mem,
     [Event.acquire (C * N), Event.release])

/-- Dot product of two vectors. -/
def dot (a b : List Rat) : Rat := (List.zipWith (fun x y => x * y) a b).sum

/-- Modelled from the spec (section 4.5): linearFwd of glm_base.h (not under
src/): Z = W X^T plus the per-class intercept when fit_intercept is set. W is
C rows of D feature weights followed by the intercept in column D; X is N rows
of D features; Z is C rows of N linear predictors. -/
def linearFwd (W : List (List Rat)) (X : List (List Rat)) (D : Nat)
    (fit_intercept : Bool) : List (List Rat) :=
  W.map (fun wc =>
    X.map (fun xn =>
      dot (wc.take D) xn + (if fit_intercept then wc.getD D 0 else 0)))

/-- The device lambda of qnPredict case 0 (qn.h lines 118-121): 1 when z is
strictly positive, else 0. -/
def thresh (z : Rat) : Rat := if 0 < z then 1 else 0

/-- Helper for the argmax model: index of the maximal entry among the remaining
list, given the running best index and value; the first maximum wins. -/
def argmaxFrom : List Rat → Nat → Nat → Rat → Nat
  | [], _, best, _ => best
  | x :: xs, i, best, bv =>
    if bv < x then argmaxFrom xs (i + 1) i x else argmaxFrom xs (i + 1) best bv

/-- Modelled from the spec (section 4.5): the index of the maximal entry of a
list of class scores (the external argmax primitive of matrix/math.h is not
under src/). -/
def argmaxList : List Rat → Nat
  | [] => 0
  | x :: xs => argmaxFrom xs 1 0 x

/-- Column n of a C x N matrix stored as C rows: the class scores of sample n. -/
def getCol (Z : List (List Rat)) (n : Nat) : List Rat :=
  Z.map (fun row => row.getD n 0)

/-- Modelled from the spec (section 4.5): per-sample argmax over the C class
scores, written as class indices into the prediction buffer. -/
def argmaxCols (Z : List (List Rat)) (N : Nat) : List Rat :=
  (List.range N).map (fun n => (argmaxList (getCol Z n) : Rat))

/-- Outcome of a qnPredict call: the prediction buffer, or a fatal assert. -/
inductive PredictResult where
  | ok (preds : List Rat)
  | abort (msg : AbortMsg)

/-- Shallow embedding of qnPredict (qn.h lines 98-136): acquires the C*N
scratch buffer, computes the linear predictor Z once via linearFwd (line 113,
before the switch), then dispatches on loss_type: elementwise threshold at
zero for 0, identity copy for 1, per-sample argmax for 2, fatal assert
otherwise. Each branch's second component is the scratch-buffer event trace
on that exit path. -/
def qnPredict (Xptr : List (List Rat)) (N D C : Nat) (fit_intercept : Bool)
    (params : List (List Rat)) (X_col_major : Bool) (loss_type : Int) :
    PredictResult × List Event :=
  if loss_type = 0 then
    if C = 1 then
      (PredictResult.ok
        (((linearFwd params Xptr D fit_intercept).headD []).map thresh),
       [Event.acquire (C * N), Event.release])
    else
      (PredictResult.abort AbortMsg.logisticInvalidC,
       [Event.acquire (C * N), Event.release])
  else if loss_type = 1 then
    if C = 1 then
      (PredictResult.ok ((linearFwd params Xptr D fit_intercept).headD []),
       [Event.acquire (C * N), Event.release])
    else
      (PredictResult.abort AbortMsg.squaredInvalidC,
       [Event.acquire (C * N), Event.release])
  else if loss_type = 2 then
    if 1 < C then
      (PredictResult.ok (argmaxCols (linearFwd params Xptr D fit_intercept) N),
       [Event.acquire (C * N), Event.release])
    else
      (PredictResult.abort AbortMsg.softmaxInvalidC,
       [Event.acquire (C * N), Event.release])
  else
    (PredictResult.abort AbortMsg.unknownLoss,
     [Event.acquire (C * N), Event.release])

/-- Modelled from the spec (sections 3 and 4.4): a curvature pair (delta of
the weights, delta of the gradient) of the L-BFGS history kept inside
qn_solvers.h (not under src/). -/
structure CurvPair where
  dw : List Rat
  dg : List Rat

/-- Modelled from the spec (section 4.4 step 5): the curvature update of the
minimizer: skip the pair when dw . dg is not strictly positive, otherwise push
it onto the bounded history, evicting the oldest entries so that at most m
remain. -/
def pushPair (m : Nat) (hist : List CurvPair) (p : CurvPair) : List CurvPair :=
  if 0 < dot p.dw p.dg then
    if m < (hist ++ [p]).length then
      (hist ++ [p]).drop ((hist ++ [p]).length - m)
    else hist ++ [p]
  else hist

/-- The curvature history produced by a run of the minimizer that attempted to
push the given sequence of pairs, starting from the empty history. -/
def runHistory (m : Nat) (ps : List CurvPair) : List CurvPair :=
  ps.foldl (pushPair m) []

/-- A concrete loss capability with np parameters, used to instantiate the
abstract parameters in concrete evaluations. -/
def exLoss (np : Nat) : LossFunction where
  n_param := np
  value := fun _ => 0
  gradient := fun _ => List.replicate np 0

/-- Concrete logistic loss constructor: dims = D, plus one with intercept. -/
def exLogistic (D : Nat) (fi : Bool) : LossFunction :=
  exLoss (if fi then D + 1 else D)

/-- Concrete squared loss constructor. -/
def exSquared (D : Nat) (fi : Bool) : LossFunction :=
  exLoss (if fi then D + 1 else D)

/-- Concrete softmax loss constructor: C blocks of dims parameters. -/
def exSoftmax (D C : Nat) (fi : Bool) : LossFunction :=
  exLoss (C * (if fi then D + 1 else D))

/-- A concrete minimizer: returns n_param zero weights, the objective value at
the probe point [1], 7 iterations and status 3. -/
def exMin : MinimizeFn := fun lw _ _ _ =>
  MinimizeResult.mk (List.replicate lw.obj.n_param 0) (lw.obj.value [1]) 7 3

/-- The same concrete minimizer as exMin except for its status code. -/
def exMin2 : MinimizeFn := fun lw _ _ _ =>
  MinimizeResult.mk (List.replicate lw.obj.n_param 0) (lw.obj.value [1]) 7 42

/-- A concrete caller memory state. -/
def exMem : FitMem := FitMem.mk [1] 0 0 [[1]] [1]

/-- The objective qn_fit binds to the data: the bare loss when l2 = 0, the
regularized loss otherwise (the branch of qn.h lines 42-55). -/
def qn_fit_obj (loss : LossFunction) (l2 : Rat) : LossFunction :=
  if l2 = 0 then loss else RegularizedGLM loss l2

/-- The loss constructed by the qnFit dispatch for a valid loss_type (qn.h
lines 70-95): logistic for 0, squared for 1, softmax for 2. -/
def fitLoss (logisticLoss squaredLoss : Nat → Bool → LossFunction)
    (softmaxLoss : Nat → Nat → Bool → LossFunction) (D C : Nat) (fi : Bool)
    (lt : Int) : LossFunction :=
  if lt = 0 then logisticLoss D fi
  else if lt = 1 then squaredLoss D fi
  else softmaxLoss D C fi

end QN

namespace QN

/-- One pushPair step preserves the history bound and the positivity of every
stored curvature pair. -/
theorem pushPair_preserves (m : Nat) (hist : List CurvPair) (p : CurvPair)
    (h1 : hist.length ≤ m) (h2 : ∀ q ∈ hist, 0 < dot q.dw q.dg) :
    (pushPair m hist p).length ≤ m
    ∧ ∀ q ∈ pushPair m hist p, 0 < dot q.dw q.dg := by
  unfold pushPair
  split_ifs with hp hm
  · refine ⟨?_, ?_⟩
    · rw [List.length_drop]
      omega
    · intro q hq
      rcases List.mem_append.mp (List.mem_of_mem_drop hq) with h | h
      · exact h2 q h
      · rw [List.mem_singleton] at h
        subst h
        exact hp
  · refine ⟨?_, ?_⟩
    · simp only [List.length_append, List.length_singleton] at hm ⊢
      omega
    · intro q hq
      rcases List.mem_append.mp hq with h | h
      · exact h2 q h
      · rw [List.mem_singleton] at h
        subst h
        exact hp
  · exact ⟨h1, h2⟩

/-- Folding pushPair over any sequence of candidate pairs preserves the
history invariant. -/
theorem foldl_pushPair_preserves (m : Nat) (ps : List CurvPair) :
    ∀ hist : List CurvPair, hist.length ≤ m →
      (∀ q ∈ hist, 0 < dot q.dw q.dg) →
      ((ps.foldl (pushPair m) hist).length ≤ m
      ∧ ∀ q ∈ ps.foldl (pushPair m) hist, 0 < dot q.dw q.dg) := by
  induction ps with
  | nil => exact fun hist h1 h2 => ⟨h1, h2⟩
  | cons p ps ih =>
    intro hist h1 h2
    have h := pushPair_preserves m hist p h1 h2
    exact ih (pushPair m hist p) h.1 h.2

/-- Claim C5: throughout a minimizer run the curvature history holds at most
lbfgs_memory pairs and every stored pair has strictly positive dw . dg; a push
onto a full history evicts the oldest pair, and a pair failing the
positive-curvature screening is skipped, leaving the history unchanged. -/
theorem c5_curvature_history_invariant (m : Nat) (ps : List CurvPair) :
    ((runHistory m ps).length ≤ m
      ∧ ∀ p ∈ runHistory m ps, 0 < dot p.dw p.dg)
    ∧ (∀ hist q, hist.length = m → 0 < dot q.dw q.dg →
        pushPair m hist q = (hist ++ [q]).drop 1)
    ∧ (∀ hist q, ¬ 0 < dot q.dw q.dg → pushPair m hist q = hist) := by
  refine ⟨foldl_pushPair_preserves m ps [] (by simp) (by simp), ?_, ?_⟩
  · intro hist q hlen hq
    have hl : (hist ++ [q]).length = m + 1 := by simp [hlen]
    unfold pushPair
    rw [if_pos hq, if_pos (by omega), hl]
    congr 1
    omega
  · intro hist q hq
    unfold pushPair
    rw [if_neg hq]

/-- Closed witness for C5: a full history of one pair evicts its oldest entry
on a positive-curvature push, a non-positive pair is skipped, and a concrete
run stays within the bound. -/
theorem c5_witness :
    (runHistory 1 [CurvPair.mk [1] [2], CurvPair.mk [3] [4]]).length ≤ 1
    ∧ pushPair 1 [CurvPair.mk [1] [1]] (CurvPair.mk [1] [2])
        = ([CurvPair.mk [1] [1]] ++ [CurvPair.mk [1] [2]]).drop 1
    ∧ pushPair 1 [CurvPair.mk [1] [1]] (CurvPair.mk [1] [-1])
        = [CurvPair.mk [1] [1]] := by
  refine ⟨(c5_curvature_history_invariant 1
      [CurvPair.mk [1] [2], CurvPair.mk [3] [4]]).1.1, ?_, ?_⟩
  · exact (c5_curvature_history_invariant 1 []).2.1 [CurvPair.mk [1] [1]]
      (CurvPair.mk [1] [2]) (by simp) (by norm_num [dot])
  · exact (c5_curvature_history_invariant 1 []).2.2 [CurvPair.mk [1] [1]]
      (CurvPair.mk [1] [-1]) (by norm_num [dot])

/-- Claim C3 (amended): qn_fit applies the Tikhonov regularization wrapper
exactly when l2 is nonzero: when l2 = 0 the unregularized loss is bound to the
data and minimized directly, with no wrapper in the objective; for any nonzero
l2, including negative values, the wrapped objective is minimized. -/
theorem c3_qn_fit_regularizer_dispatch (qm : MinimizeFn) (loss : LossFunction)
    (mem : FitMem) (N : Nat) (l1 l2 : Rat) (mi : Nat) (gt : Rat)
    (lmi lbm : Nat) (ord : STORAGE_ORDER) :
    (l2 = 0 →
      qn_fit qm loss mem N l1 l2 mi gt lmi lbm ord
        = writeBack mem (qm (GLMWithData.mk loss mem.X mem.y N ord) l1
            (LBFGSParam.mk gt mi lbm lmi) mem.w0))
    ∧ (l2 ≠ 0 →
      qn_fit qm loss mem N l1 l2 mi gt lmi lbm ord
        = writeBack mem
            (qm (GLMWithData.mk (RegularizedGLM loss l2) mem.X mem.y N ord) l1
              (LBFGSParam.mk gt mi lbm lmi) mem.w0)) := by
  constructor <;> intro h <;> simp [qn_fit, h]

/-- Counterexample to C3 as stated: at l2 = -1, which is not strictly
positive, qn_fit nevertheless applies the regularization wrapper: the
minimized objective value carries the Tikhonov term (it equals the wrapped
value at the probe point and differs from the bare loss value there). -/
theorem c3_counterexample :
    (qn_fit exMin (exLoss 1) exMem 1 0 (-1) 0 0 0 0
        STORAGE_ORDER.ROW_MAJOR).2.f
      = (exLoss 1).value [1] + (-1) * normSq [1]
    ∧ (qn_fit exMin (exLoss 1) exMem 1 0 (-1) 0 0 0 0
        STORAGE_ORDER.ROW_MAJOR).2.f
      ≠ (exLoss 1).value [1]
    ∧ ¬ (0 < (-1 : Rat)) := by
  refine ⟨?_, ?_, by norm_num⟩ <;>
    norm_num [qn_fit, writeBack, exMin, exLoss, exMem, RegularizedGLM,
      Tikhonov.reg_value, normSq]

/-- Closed witness for the amended C3, at l2 = 0 and at l2 = 2. -/
theorem c3_witness :
    qn_fit exMin (exLoss 1) exMem 1 0 0 0 0 0 0 STORAGE_ORDER.ROW_MAJOR
      = writeBack exMem (exMin (GLMWithData.mk (exLoss 1) exMem.X exMem.y 1
          STORAGE_ORDER.ROW_MAJOR) 0 (LBFGSParam.mk 0 0 0 0) exMem.w0)
    ∧ qn_fit exMin (exLoss 1) exMem 1 0 2 0 0 0 0 STORAGE_ORDER.ROW_MAJOR
      = writeBack exMem
          (exMin (GLMWithData.mk (RegularizedGLM (exLoss 1) 2) exMem.X exMem.y 1
            STORAGE_ORDER.ROW_MAJOR) 0 (LBFGSParam.mk 0 0 0 0) exMem.w0) :=
  ⟨(c3_qn_fit_regularizer_dispatch exMin (exLoss 1) exMem 1 0 0 0 0 0 0
      STORAGE_ORDER.ROW_MAJOR).1 rfl,
   (c3_qn_fit_regularizer_dispatch exMin (exLoss 1) exMem 1 0 2 0 0 0 0
      STORAGE_ORDER.ROW_MAJOR).2 (by norm_num)⟩

/-- Claim C2: for valid loss_type and C, qnPredict computes the linear
predictor via linearFwd from the fitted weights and produces the prediction by
the loss-specific decision rule: elementwise threshold at zero for logistic,
identity copy for squared error, per-sample argmax over the C class scores for
softmax. -/
theorem c2_qnPredict_decision_rules (Xp : List (List Rat)) (N D C : Nat)
    (fi xcm : Bool) (params : List (List Rat)) :
    ((qnPredict Xp N D 1 fi params xcm 0).1
        = PredictResult.ok
            (((linearFwd params Xp D fi).headD []).map thresh))
    ∧ ((qnPredict Xp N D 1 fi params xcm 1).1
        = PredictResult.ok ((linearFwd params Xp D fi).headD []))
    ∧ (1 < C →
        (qnPredict Xp N D C fi params xcm 2).1
          = PredictResult.ok (argmaxCols (linearFwd params Xp D fi) N)) := by
  refine ⟨by simp [qnPredict], by simp [qnPredict], fun hC => ?_⟩
  simp [qnPredict, hC]

/-- Closed witness for C2: a concrete softmax predict call with three classes
returns the argmax class index. -/
theorem c2_witness :
    (qnPredict [[1]] 1 1 3 false [[1], [2], [3]] false 2).1
      = PredictResult.ok [2] := by
  have h := (c2_qnPredict_decision_rules [[1]] 1 1 3 false false
    [[1], [2], [3]]).2.2 (by norm_num)
  rw [h]
  norm_num [argmaxCols, getCol, linearFwd, dot, argmaxList, argmaxFrom,
    List.range_succ]

/-- Claim C1: qnFit validates loss_type against the class count C: loss_type 0
(logistic) and 1 (squared error) require C = 1, loss_type 2 (softmax) requires
C > 1, and any other loss_type is rejected; exactly in these violation cases
the call aborts through the fatal assert instead of returning normally. -/
theorem c1_qnFit_loss_type_validation (qm : MinimizeFn)
    (ll sl : Nat → Bool → LossFunction) (sm : Nat → Nat → Bool → LossFunction)
    (mem : FitMem) (N D C : Nat) (fi : Bool) (l1 l2 : Rat) (mi : Nat)
    (gt : Rat) (lmi lbm : Nat) (xcm : Bool) (lt : Int) :
    (∃ msg m0, (qnFit qm ll sl sm mem N D C fi l1 l2 mi gt lmi lbm xcm lt).1
        = FitResult.abort msg m0)
      ↔ ¬ ((lt = 0 ∧ C = 1) ∨ (lt = 1 ∧ C = 1) ∨ (lt = 2 ∧ 1 < C)) := by
  unfold qnFit
  split_ifs with h0 h0c h1 h1c h2 h2c <;> simp_all

/-- Claim C4: the regularization wrapper satisfies the contract
value(w) = loss.value(w) + l2 * the squared norm of w, and
gradient(w) = loss.gradient(w) + 2 * l2 * w (componentwise), with the
parameter count passed through from the wrapped loss. -/
theorem c4_regularization_wrapper_contract (loss : LossFunction) (l2 : Rat)
    (w : List Rat) :
    (RegularizedGLM loss l2).value w = loss.value w + l2 * normSq w
    ∧ (RegularizedGLM loss l2).gradient w
        = List.zipWith (fun a b => a + b) (loss.gradient w)
            (w.map (fun x => 2 * l2 * x))
    ∧ (RegularizedGLM loss l2).n_param = loss.n_param :=
  ⟨rfl, rfl, rfl⟩

/-- Claim C6: on every execution path of qnFit and of qnPredict, the z scratch
buffer is acquired exactly once, with size exactly C * N, at call entry, and
released at call exit; this holds for abort paths as well as normal returns. -/
theorem c6_scratch_buffer_events (qm : MinimizeFn)
    (ll sl : Nat → Bool → LossFunction) (sm : Nat → Nat → Bool → LossFunction)
    (mem : FitMem) (Xp params : List (List Rat)) (N D C : Nat) (fi : Bool)
    (l1 l2 : Rat) (mi : Nat) (gt : Rat) (lmi lbm : Nat) (xcm : Bool)
    (lt : Int) :
    (qnFit qm ll sl sm mem N D C fi l1 l2 mi gt lmi lbm xcm lt).2
        = [Event.acquire (C * N), Event.release]
    ∧ (qnPredict Xp N D C fi params xcm lt).2
        = [Event.acquire (C * N), Event.release] :=
  ⟨by unfold qnFit; split_ifs <;> rfl, by unfold qnPredict; split_ifs <;> rfl⟩

/-- qn_fit is the write-back of the minimizer run on the bound objective
selected by qn_fit_obj. -/
theorem qn_fit_eq_writeBack (qm : MinimizeFn) (loss : LossFunction)
    (mem : FitMem) (N : Nat) (l1 l2 : Rat) (mi : Nat) (gt : Rat)
    (lmi lbm : Nat) (ord : STORAGE_ORDER) :
    qn_fit qm loss mem N l1 l2 mi gt lmi lbm ord
      = writeBack mem
          (qm (GLMWithData.mk (qn_fit_obj loss l2) mem.X mem.y N ord) l1
            (LBFGSParam.mk gt mi lbm lmi) mem.w0) := by
  by_cases hl2 : l2 = 0 <;> simp [qn_fit, qn_fit_obj, hl2]

/-- Claim C7: for every valid qnFit call, the results are written in place:
the returned memory carries the minimizer's fitted weights in w0 (exactly
n_param of them, under the stated length contract of the solver), the final
objective value in f and the iteration count in num_iters, while the X and y
buffers are returned unchanged. -/
theorem c7_fit_outputs_in_place (qm : MinimizeFn)
    (ll sl : Nat → Bool → LossFunction) (sm : Nat → Nat → Bool → LossFunction)
    (mem : FitMem) (N D C : Nat) (fi : Bool) (l1 l2 : Rat) (mi : Nat)
    (gt : Rat) (lmi lbm : Nat) (xcm : Bool) (lt : Int)
    (hvalid : (lt = 0 ∧ C = 1) ∨ (lt = 1 ∧ C = 1) ∨ (lt = 2 ∧ 1 < C))
    (hlen : ∀ lw a b w0, (qm lw a b w0).w.length = lw.obj.n_param) :
    (qnFit qm ll sl sm mem N D C fi l1 l2 mi gt lmi lbm xcm lt).1
      = FitResult.ok
          (FitMem.mk
            (qm (GLMWithData.mk (qn_fit_obj (fitLoss ll sl sm D C fi lt) l2)
                mem.X mem.y N (storageOrder xcm)) l1
              (LBFGSParam.mk gt mi lbm lmi) mem.w0).w
            (qm (GLMWithData.mk (qn_fit_obj (fitLoss ll sl sm D C fi lt) l2)
                mem.X mem.y N (storageOrder xcm)) l1
              (LBFGSParam.mk gt mi lbm lmi) mem.w0).fx
            (qm (GLMWithData.mk (qn_fit_obj (fitLoss ll sl sm D C fi lt) l2)
                mem.X mem.y N (storageOrder xcm)) l1
              (LBFGSParam.mk gt mi lbm lmi) mem.w0).iters
            mem.X mem.y)
    ∧ (qm (GLMWithData.mk (qn_fit_obj (fitLoss ll sl sm D C fi lt) l2)
          mem.X mem.y N (storageOrder xcm)) l1
        (LBFGSParam.mk gt mi lbm lmi) mem.w0).w.length
      = (fitLoss ll sl sm D C fi lt).n_param := by
  have hnp : (qn_fit_obj (fitLoss ll sl sm D C fi lt) l2).n_param
      = (fitLoss ll sl sm D C fi lt).n_param := by
    by_cases hl2 : l2 = 0 <;> simp [qn_fit_obj, hl2, RegularizedGLM]
  refine ⟨?_, (hlen _ _ _ _).trans hnp⟩
  rcases hvalid with ⟨hlt, hC⟩ | ⟨hlt, hC⟩ | ⟨hlt, hC⟩ <;> subst hlt
  · subst hC
    simp [qnFit, qn_fit_eq_writeBack, writeBack, fitLoss]
  · subst hC
    simp [qnFit, qn_fit_eq_writeBack, writeBack, fitLoss]
  · simp [qnFit, hC, Nat.ne_of_gt hC, qn_fit_eq_writeBack, writeBack, fitLoss]

/-- Closed witness for C7: a concrete logistic fit writes the fitted weights,
objective value and iteration count in place and leaves X and y unchanged. -/
theorem c7_witness :
    (qnFit exMin exLogistic exSquared exSoftmax exMem 1 1 1 false 0 0 5 0 5 5
        false 0).1
      = FitResult.ok (FitMem.mk [0] 0 7 [[1]] [1]) := by
  have h := c7_fit_outputs_in_place exMin exLogistic exSquared exSoftmax exMem
    1 1 1 false 0 0 5 0 5 5 false 0 (Or.inl ⟨rfl, rfl⟩)
    (fun lw a b w0 => by simp [exMin])
  rw [h.1]
  norm_num [exMin, exMem, qn_fit_obj, fitLoss, exLogistic, exLoss]

/-- The caller-visible part of qn_fit (everything except the status code) does
not depend on the status component of the minimizer. -/
theorem qn_fit_snd_minimizer_agree (qm1 qm2 : MinimizeFn)
    (hagree : ∀ lw a b w, (qm1 lw a b w).w = (qm2 lw a b w).w
        ∧ (qm1 lw a b w).fx = (qm2 lw a b w).fx
        ∧ (qm1 lw a b w).iters = (qm2 lw a b w).iters)
    (loss : LossFunction) (mem : FitMem) (N : Nat) (l1 l2 : Rat) (mi : Nat)
    (gt : Rat) (lmi lbm : Nat) (ord : STORAGE_ORDER) :
    (qn_fit qm1 loss mem N l1 l2 mi gt lmi lbm ord).2
      = (qn_fit qm2 loss mem N l1 l2 mi gt lmi lbm ord).2 := by
  have h := hagree (GLMWithData.mk (qn_fit_obj loss l2) mem.X mem.y N ord) l1
    (LBFGSParam.mk gt mi lbm lmi) mem.w0
  rw [qn_fit_eq_writeBack, qn_fit_eq_writeBack]
  simp [writeBack, h.1, h.2.1, h.2.2]

/-- Claim C8: qnFit exposes no success or failure code: every valid call
returns normally whatever the minimizer reports, and the call's entire
caller-visible outcome is insensitive to the integer status qn_fit returns;
two solvers differing only in status yield identical qnFit results. -/
theorem c8_status_discarded (qm1 qm2 : MinimizeFn)
    (ll sl : Nat → Bool → LossFunction) (sm : Nat → Nat → Bool → LossFunction)
    (mem : FitMem) (N D C : Nat) (fi : Bool) (l1 l2 : Rat) (mi : Nat)
    (gt : Rat) (lmi lbm : Nat) (xcm : Bool) (lt : Int)
    (hagree : ∀ lw a b w, (qm1 lw a b w).w = (qm2 lw a b w).w
        ∧ (qm1 lw a b w).fx = (qm2 lw a b w).fx
        ∧ (qm1 lw a b w).iters = (qm2 lw a b w).iters) :
    ((lt = 0 ∧ C = 1) ∨ (lt = 1 ∧ C = 1) ∨ (lt = 2 ∧ 1 < C) →
      ∃ mem', (qnFit qm1 ll sl sm mem N D C fi l1 l2 mi gt lmi lbm xcm lt).1
          = FitResult.ok mem')
    ∧ qnFit qm1 ll sl sm mem N D C fi l1 l2 mi gt lmi lbm xcm lt
        = qnFit qm2 ll sl sm mem N D C fi l1 l2 mi gt lmi lbm xcm lt := by
  constructor
  · rintro (⟨hlt, hC⟩ | ⟨hlt, hC⟩ | ⟨hlt, hC⟩) <;> subst hlt
    · subst hC
      exact ⟨(qn_fit qm1 (ll D fi) mem N l1 l2 mi gt lmi lbm
        (storageOrder xcm)).2, by simp [qnFit]⟩
    · subst hC
      exact ⟨(qn_fit qm1 (sl D fi) mem N l1 l2 mi gt lmi lbm
        (storageOrder xcm)).2, by simp [qnFit]⟩
    · exact ⟨(qn_fit qm1 (sm D C fi) mem N l1 l2 mi gt lmi lbm
        (storageOrder xcm)).2, by simp [qnFit, hC]⟩
  · unfold qnFit
    split_ifs <;>
      simp [qn_fit_snd_minimizer_agree qm1 qm2 hagree]

/-- Closed witness for C8: two concrete solvers that differ only in their
status code produce identical qnFit outcomes. -/
theorem c8_witness :
    qnFit exMin exLogistic exSquared exSoftmax exMem 1 1 1 false 0 0 5 0 5 5
        false 0
      = qnFit exMin2 exLogistic exSquared exSoftmax exMem 1 1 1 false 0 0 5 0
        5 5 false 0 :=
  (c8_status_discarded exMin exMin2 exLogistic exSquared exSoftmax exMem 1 1 1
    false 0 0 5 0 5 5 false 0 (fun _ _ _ _ => ⟨rfl, rfl, rfl⟩)).2

/-- Claim C9: the logistic prediction threshold is strict: a linear predictor
of exactly zero yields prediction 0, a strictly positive one yields 1, and
every prediction the logistic path produces is exactly 0 or exactly 1. -/
theorem c9_logistic_threshold_strict (z : Rat) (Xp : List (List Rat))
    (N D : Nat) (fi xcm : Bool) (W : List (List Rat)) (ps : List Rat) :
    (z = 0 → thresh z = 0)
    ∧ (0 < z → thresh z = 1)
    ∧ (thresh z = 0 ∨ thresh z = 1)
    ∧ ((qnPredict Xp N D 1 fi W xcm 0).1 = PredictResult.ok ps →
        ∀ p ∈ ps, p = 0 ∨ p = 1) := by
  refine ⟨?_, ?_, ?_, ?_⟩
  · intro h
    subst h
    simp [thresh]
  · intro h
    simp [thresh, h]
  · unfold thresh
    split_ifs <;> simp
  · intro hok p hp
    have hps : ((linearFwd W Xp D fi).headD []).map thresh = ps := by
      simpa [qnPredict] using hok
    rw [← hps] at hp
    rcases List.mem_map.mp hp with ⟨z0, _, rfl⟩
    unfold thresh
    split_ifs <;> simp

/-- Closed witness for C9: threshold at zero yields 0, at a positive value
yields 1, and a concrete logistic predict output entry is 0 or 1. -/
theorem c9_witness :
    thresh 0 = 0 ∧ thresh 2 = 1 ∧ (thresh 1 = 0 ∨ thresh 1 = 1) := by
  refine ⟨(c9_logistic_threshold_strict 0 [] 0 0 false false [] []).1 rfl,
    (c9_logistic_threshold_strict 2 [] 0 0 false false [] []).2.1
      (by norm_num), ?_⟩
  exact (c9_logistic_threshold_strict 0 [[1]] 1 1 false false [[1]]
      [thresh 1]).2.2.2
    (by norm_num [qnPredict, linearFwd, dot]) (thresh 1) (by simp)

/-- Claim C10: when qnFit rejects its inputs (unknown loss_type or a
loss_type/C mismatch), the fatal assert fires before any optimizer work: the
caller-visible memory at the abort is exactly the input memory (w0, f and
num_iters unwritten), and the whole outcome is independent of the solver. -/
theorem c10_abort_leaves_outputs_unwritten (qm : MinimizeFn)
    (ll sl : Nat → Bool → LossFunction) (sm : Nat → Nat → Bool → LossFunction)
    (mem : FitMem) (N D C : Nat) (fi : Bool) (l1 l2 : Rat) (mi : Nat)
    (gt : Rat) (lmi lbm : Nat) (xcm : Bool) (lt : Int)
    (hviol : ¬ ((lt = 0 ∧ C = 1) ∨ (lt = 1 ∧ C = 1) ∨ (lt = 2 ∧ 1 < C))) :
    (∃ msg, (qnFit qm ll sl sm mem N D C fi l1 l2 mi gt lmi lbm xcm lt).1
        = FitResult.abort msg mem)
    ∧ ∀ qm' : MinimizeFn,
        qnFit qm ll sl sm mem N D C fi l1 l2 mi gt lmi lbm xcm lt
          = qnFit qm' ll sl sm mem N D C fi l1 l2 mi gt lmi lbm xcm lt := by
  unfold qnFit
  split_ifs with h0 h0c h1 h1c h2 h2c
  · exact absurd (Or.inl ⟨h0, h0c⟩) hviol
  · exact ⟨⟨AbortMsg.logisticInvalidC, rfl⟩, fun qm' => rfl⟩
  · exact absurd (Or.inr (Or.inl ⟨h1, h1c⟩)) hviol
  · exact ⟨⟨AbortMsg.squaredInvalidC, rfl⟩, fun qm' => rfl⟩
  · exact absurd (Or.inr (Or.inr ⟨h2, h2c⟩)) hviol
  · exact ⟨⟨AbortMsg.softmaxInvalidC, rfl⟩, fun qm' => rfl⟩
  · exact ⟨⟨AbortMsg.unknownLoss, rfl⟩, fun qm' => rfl⟩

/-- Closed witness for C10: a call with unknown loss_type 7 aborts with the
input memory intact and independently of the solver. -/
theorem c10_witness :
    qnFit exMin exLogistic exSquared exSoftmax exMem 1 1 1 false 0 0 5 0 5 5
        false 7
      = qnFit exMin2 exLogistic exSquared exSoftmax exMem 1 1 1 false 0 0 5 0
        5 5 false 7
    ∧ (qnFit exMin exLogistic exSquared exSoftmax exMem 1 1 1 false 0 0 5 0 5
        5 false 7).1
      = FitResult.abort AbortMsg.unknownLoss exMem := by
  refine ⟨(c10_abort_leaves_outputs_unwritten exMin exLogistic exSquared
    exSoftmax exMem 1 1 1 false 0 0 5 0 5 5 false 7 (by decide)).2 exMin2, ?_⟩
  norm_num [qnFit]

end QN
